import Mathlib

set_option maxHeartbeats 1000000

/-!
Shallow embedding of the Cypress soft-assertions plugin (`soft_it`).

The plugin keeps three module-level mutable variables
(`softAssertionErrors`, `isInSoftTest`, `originalAssert`) and
monkey-patches `chai.Assertion.prototype.assert`.  We model that mutable
state explicitly as a `SoftState` record and translate each function of
the source file into a state-passing Lean function.
-/

/-- A JavaScript value as seen by the assertion entry point: either
`undefined` or some other value (tagged abstractly). -/
inductive JsValue where
  | undef
  | other (tag : Nat)
deriving DecidableEq, Repr

/-- A JavaScript `Error`: its `name`, `message` and optional `stack`. -/
structure JsError where
  name : String
  message : String
  stack : Option String
deriving DecidableEq, Repr

/-- `interface ErrorEntry { message: string; stack?: string }` -/
structure ErrorEntry where
  message : String
  stack : Option String
deriving DecidableEq, Repr

/-- The function object currently stored in
`chai.Assertion.prototype.assert`: either chai's native assert or the
soft wrapper installed by `setupSoftAssertions`. -/
inductive AssertSlot where
  | original
  | wrapper
deriving DecidableEq, Repr

/-- The module-level mutable state of the plugin: the three globals
`softAssertionErrors`, `isInSoftTest`, `originalAssert` together with the
current value of `chai.Assertion.prototype.assert` (`engineAssert`). -/
structure SoftState where
  softAssertionErrors : List ErrorEntry
  isInSoftTest : Bool
  originalAssert : Option AssertSlot
  engineAssert : AssertSlot
deriving DecidableEq, Repr

/-- State at module load: empty buffer, flag off, `originalAssert = null`,
chai's own assert installed on the engine. -/
def initialState : SoftState :=
  { softAssertionErrors := [], isInSoftTest := false,
    originalAssert := none, engineAssert := AssertSlot.original }

/-- `setupSoftAssertions()`: if `!originalAssert`, capture the engine's
current assert into `originalAssert`; then overwrite the engine's assert
with the wrapper. -/
def setupSoftAssertions (s : SoftState) : SoftState :=
  let s1 := if s.originalAssert = none then
      { s with originalAssert := some s.engineAssert }
    else s
  { s1 with engineAssert := AssertSlot.wrapper }

/-- `restoreAssertions()`: if `originalAssert` is set, put it back on the
engine; otherwise do nothing. -/
def restoreAssertions (s : SoftState) : SoftState :=
  match s.originalAssert with
  | some orig => { s with engineAssert := orig }
  | none => s

/-- The wrapper function installed by `setupSoftAssertions` over
`chai.Assertion.prototype.assert`.  `originalAssert` is the captured
original routine; it is applied to the same receiver `thisArg` and
argument list `args` the wrapper was invoked with.  If `isInSoftTest`,
a failure of the original is caught and appended to the buffer (message
and stack) and the wrapper returns normally (`undefined`); otherwise the
original's failure propagates.  The wrapper body has no `return`
statement, so on normal completion it returns `undefined`. -/
def softAssertWrapper {R A : Type} (originalAssert : R → A → Except JsError JsValue)
    (isInSoftTest : Bool) (softAssertionErrors : List ErrorEntry)
    (thisArg : R) (args : A) : List ErrorEntry × Except JsError JsValue :=
  if isInSoftTest then
    match originalAssert thisArg args with
    | Except.ok _ => (softAssertionErrors, Except.ok JsValue.undef)
    | Except.error e =>
        (softAssertionErrors ++ [{ message := e.message, stack := e.stack }],
         Except.ok JsValue.undef)
  else
    match originalAssert thisArg args with
    | Except.ok _ => (softAssertionErrors, Except.ok JsValue.undef)
    | Except.error e => (softAssertionErrors, Except.error e)

/-- One call of the engine's current assert entry point.  `origOutcome`
is what the captured original routine does on this particular receiver
and argument list (return a value, or throw). -/
def invokeAssert (s : SoftState) (origOutcome : Except JsError JsValue) :
    SoftState × Except JsError JsValue :=
  match s.engineAssert with
  | AssertSlot.original => (s, origOutcome)
  | AssertSlot.wrapper =>
      let r := softAssertWrapper (fun (_ : Unit) (_ : Unit) => origOutcome)
        s.isInSoftTest s.softAssertionErrors () ()
      ({ s with softAssertionErrors := r.1 }, r.2)

/-- `'='.repeat(80)` -/
def banner : String := String.mk (List.replicate 80 '=')

/-- The per-entry formatter inside `reportSoftAssertionFailures`:
``(entry, index) => `  ${index + 1}. ${entry.message}` `` -/
def formatEntry (index : Nat) (entry : ErrorEntry) : String :=
  "  " ++ toString (index + 1) ++ ". " ++ entry.message

/-- `softAssertionErrors.map((entry, index) => ...)` -/
def numberedLines (errs : List ErrorEntry) : List String :=
  errs.enum.map fun p => formatEntry p.1 p.2

/-- JavaScript `Array.prototype.join(sep)`. -/
def joinSep (sep : String) : List String → String
  | [] => ""
  | [a] => a
  | a :: b :: rest => a ++ sep ++ joinSep sep (b :: rest)

/-- `const errorMessages = softAssertionErrors.map(...).join('\n')` -/
def errorMessagesOf (errs : List ErrorEntry) : String :=
  joinSep "\n" (numberedLines errs)

/-- The header line `SOFT ASSERTION FAILURES (<N> failed):`. -/
def headerLine (n : Nat) : String :=
  "SOFT ASSERTION FAILURES (" ++ toString n ++ " failed):"

/-- `const finalMessage = ['', banner, header, banner, errorMessages,
banner, ''].join('\n')` -/
def finalMessageOf (errs : List ErrorEntry) : String :=
  joinSep "\n"
    ["", banner, headerLine errs.length, banner, errorMessagesOf errs, banner, ""]

/-- `reportSoftAssertionFailures()`: if the buffer is non-empty, build
the composite message, clear the buffer, and throw a
`SoftAssertionError`; otherwise do nothing.  Returns the new buffer and
the thrown error (if any). -/
def reportSoftAssertionFailures (errs : List ErrorEntry) :
    List ErrorEntry × Option JsError :=
  if errs.length > 0 then
    ([], some { name := "SoftAssertionError", message := finalMessageOf errs,
                stack := none })
  else
    (errs, none)

deriving instance DecidableEq for Except

/-- How a `soft_it` test body terminates: it completes normally (either
returning a non-thenable, or a thenable that resolves — both reach the
final `cy.wrap(null).then(...)` step), it throws synchronously, or it
returns a thenable that rejects. -/
inductive BodyEnd where
  | completes
  | syncThrow (e : JsError)
  | rejects (e : JsError)
deriving DecidableEq, Repr

/-- One execution of a `soft_it` test body: the outcomes the captured
original assert routine would produce for each check the body issues, in
order, followed by how the body terminates. -/
structure SoftItRun where
  asserts : List (Except JsError JsValue)
  ending : BodyEnd
deriving DecidableEq, Repr

/-- The prologue of the function `soft_it` registers with `it`:
`isInSoftTest = true; softAssertionErrors = []; setupSoftAssertions();` -/
def softItStart (s : SoftState) : SoftState :=
  setupSoftAssertions { s with isInSoftTest := true, softAssertionErrors := [] }

/-- Execute the body's checks in order through the engine's current
assert entry point; a check that throws aborts the remaining checks. -/
def runAssertions : SoftState → List (Except JsError JsValue) → SoftState × Option JsError
  | s, [] => (s, none)
  | s, a :: rest =>
      match invokeAssert s a with
      | (s1, Except.ok _) => runAssertions s1 rest
      | (s1, Except.error e) => (s1, some e)

/-- The deferred final step `cy.wrap(null).then(() => { isInSoftTest =
false; reportSoftAssertionFailures(); })`. -/
def softItFinish (s : SoftState) : SoftState × Option JsError :=
  let s1 := { s with isInSoftTest := false }
  let r := reportSoftAssertionFailures s1.softAssertionErrors
  ({ s1 with softAssertionErrors := r.1 }, r.2)

/-- One full run of a `soft_it` (or `soft_it.only`, whose registered
function is identical) test: prologue, body checks, then the branch of
`executeTest` selected by how the body terminated.  Both the synchronous
`catch` and the promise rejection handler run
`isInSoftTest = false; restoreAssertions(); throw err;`.
Returns the final state and the error the test fails with (if any). -/
def softItRun (s : SoftState) (run : SoftItRun) : SoftState × Option JsError :=
  match run.ending with
  | BodyEnd.completes =>
      softItFinish (runAssertions (softItStart s) run.asserts).1
  | BodyEnd.syncThrow e =>
      (restoreAssertions { (runAssertions (softItStart s) run.asserts).1 with
        isInSoftTest := false }, some e)
  | BodyEnd.rejects e =>
      (restoreAssertions { (runAssertions (softItStart s) run.asserts).1 with
        isInSoftTest := false }, some e)

/-- The failure records the wrapper captures from a list of check
outcomes while soft mode is on: one entry per failing check, in order. -/
def capturedRecords (asserts : List (Except JsError JsValue)) : List ErrorEntry :=
  asserts.filterMap fun a =>
    match a with
    | Except.error e => some { message := e.message, stack := e.stack }
    | Except.ok _ => none

/-- Concrete errors used for witnesses and counterexamples. -/
def failA : JsError := { name := "AssertionError", message := "A", stack := none }

def failC : JsError := { name := "AssertionError", message := "C", stack := none }

def hardErr : JsError := { name := "TypeError", message := "boom", stack := none }

/-! ### Helper lemmas about `joinSep` and the report format -/

theorem joinSep_cons (sep a : String) (l : List String) (h : l ≠ []) :
    joinSep sep (a :: l) = a ++ sep ++ joinSep sep l := by
  cases l with
  | nil => exact absurd rfl h
  | cons b bs => rfl

theorem joinSep_append (sep : String) (l1 l2 : List String)
    (h1 : l1 ≠ []) (h2 : l2 ≠ []) :
    joinSep sep (l1 ++ l2) = joinSep sep l1 ++ sep ++ joinSep sep l2 := by
  induction l1 with
  | nil => exact absurd rfl h1
  | cons a l1 ih =>
    cases l1 with
    | nil => simpa using joinSep_cons sep a l2 h2
    | cons b bs =>
      have hbs : (b :: bs : List String) ≠ [] := by simp
      have hne : ((b :: bs : List String) ++ l2) ≠ [] := by simp
      rw [List.cons_append, joinSep_cons sep a ((b :: bs) ++ l2) hne,
        ih hbs, joinSep_cons sep a (b :: bs) hbs]
      simp [String.append_assoc]

theorem joinSep_flatten (sep : String) (pre post L : List String) (h : L ≠ []) :
    joinSep sep (pre ++ joinSep sep L :: post) = joinSep sep (pre ++ L ++ post) := by
  induction pre with
  | nil =>
    cases post with
    | nil =>
      simp only [List.nil_append, List.append_nil]
      cases L with
      | nil => exact absurd rfl h
      | cons a as => rfl
    | cons p ps =>
      have hpost : (p :: ps : List String) ≠ [] := by simp
      rw [List.nil_append, joinSep_cons sep _ _ hpost, List.nil_append,
        joinSep_append sep L (p :: ps) h hpost]
  | cons q qs ih =>
    have h1 : (qs ++ joinSep sep L :: post : List String) ≠ [] := by simp
    have h2 : (qs ++ (L ++ post) : List String) ≠ [] := by
      cases L with
      | nil => exact absurd rfl h
      | cons x xs => simp
    calc joinSep sep ((q :: qs) ++ joinSep sep L :: post)
        = q ++ sep ++ joinSep sep (qs ++ joinSep sep L :: post) := by
          rw [List.cons_append, joinSep_cons sep q _ h1]
      _ = q ++ sep ++ joinSep sep (qs ++ L ++ post) := by rw [ih]
      _ = joinSep sep ((q :: qs) ++ L ++ post) := by
          rw [List.append_assoc, List.append_assoc, List.cons_append,
            joinSep_cons sep q _ h2]

theorem numberedLines_length (errs : List ErrorEntry) :
    (numberedLines errs).length = errs.length := by
  simp [numberedLines]

theorem numberedLines_ne_nil (errs : List ErrorEntry) (h : errs ≠ []) :
    numberedLines errs ≠ [] := by
  intro hc
  have := numberedLines_length errs
  rw [hc] at this
  exact h (List.eq_nil_of_length_eq_zero this.symm)

theorem numberedLines_get (errs : List ErrorEntry) (i : Nat)
    (h1 : i < (numberedLines errs).length) (h2 : i < errs.length) :
    (numberedLines errs).get ⟨i, h1⟩ =
      "  " ++ toString (i + 1) ++ ". " ++ (errs.get ⟨i, h2⟩).message := by
  simp [numberedLines, formatEntry]

theorem finalMessageOf_eq (errs : List ErrorEntry) (h : errs ≠ []) :
    finalMessageOf errs =
      joinSep "\n" (["", banner, headerLine errs.length, banner]
        ++ numberedLines errs ++ [banner, ""]) := by
  have hn := numberedLines_ne_nil errs h
  have hfl := joinSep_flatten "\n" ["", banner, headerLine errs.length, banner]
    [banner, ""] (numberedLines errs) hn
  simpa [finalMessageOf, errorMessagesOf, List.append_assoc] using hfl

/-! ### Helper lemmas about the plugin state machine -/

theorem setup_engineAssert (s : SoftState) :
    (setupSoftAssertions s).engineAssert = AssertSlot.wrapper := by
  unfold setupSoftAssertions
  by_cases h : s.originalAssert = none <;> simp [h]

theorem setup_softAssertionErrors (s : SoftState) :
    (setupSoftAssertions s).softAssertionErrors = s.softAssertionErrors := by
  unfold setupSoftAssertions
  by_cases h : s.originalAssert = none <;> simp [h]

theorem setup_isInSoftTest (s : SoftState) :
    (setupSoftAssertions s).isInSoftTest = s.isInSoftTest := by
  unfold setupSoftAssertions
  by_cases h : s.originalAssert = none <;> simp [h]

theorem setup_originalAssert_of_none (s : SoftState) (h : s.originalAssert = none) :
    (setupSoftAssertions s).originalAssert = some s.engineAssert := by
  simp [setupSoftAssertions, h]

theorem setup_originalAssert_of_some (s : SoftState) (o : AssertSlot)
    (h : s.originalAssert = some o) :
    (setupSoftAssertions s).originalAssert = some o := by
  simp [setupSoftAssertions, h]

theorem restore_isInSoftTest (s : SoftState) :
    (restoreAssertions s).isInSoftTest = s.isInSoftTest := by
  unfold restoreAssertions
  cases s.originalAssert <;> simp

theorem restore_softAssertionErrors (s : SoftState) :
    (restoreAssertions s).softAssertionErrors = s.softAssertionErrors := by
  unfold restoreAssertions
  cases s.originalAssert <;> simp

theorem restore_engineAssert_of_some (s : SoftState) (o : AssertSlot)
    (h : s.originalAssert = some o) :
    (restoreAssertions s).engineAssert = o := by
  simp [restoreAssertions, h]

/-- While the flag is on and the wrapper is installed, running a list of
checks never throws and appends exactly the records of the failing
checks, in order. -/
theorem runAssertions_soft (asserts : List (Except JsError JsValue)) :
    ∀ s : SoftState, s.isInSoftTest = true → s.engineAssert = AssertSlot.wrapper →
    runAssertions s asserts =
      ({ s with softAssertionErrors :=
          s.softAssertionErrors ++ capturedRecords asserts }, none) := by
  induction asserts with
  | nil => intro s h1 h2; simp [runAssertions, capturedRecords]
  | cons a rest ih =>
    intro s h1 h2
    cases a with
    | ok v =>
      rw [runAssertions]
      simp only [invokeAssert, h2, softAssertWrapper, h1, if_true]
      rw [ih _ rfl rfl]
      simp [capturedRecords, List.filterMap_cons]
    | error e =>
      rw [runAssertions]
      simp only [invokeAssert, h2, softAssertWrapper, h1, if_true]
      rw [ih _ rfl rfl]
      simp [capturedRecords, List.filterMap_cons, List.append_assoc]

theorem softItStart_isInSoftTest (s : SoftState) :
    (softItStart s).isInSoftTest = true := by
  simp [softItStart, setup_isInSoftTest]

theorem softItStart_engineAssert (s : SoftState) :
    (softItStart s).engineAssert = AssertSlot.wrapper := by
  simp [softItStart, setup_engineAssert]

theorem softItStart_softAssertionErrors (s : SoftState) :
    (softItStart s).softAssertionErrors = [] := by
  simp [softItStart, setup_softAssertionErrors]

/-- The hypothesis that the engine is in a state from which
`setupSoftAssertions` captures (or has already captured) chai's native
assert: either a previous install captured it, or no install has
happened yet and the native assert is still on the engine. -/
def capturedOriginal (s : SoftState) : Prop :=
  s.originalAssert = some AssertSlot.original ∨
    (s.originalAssert = none ∧ s.engineAssert = AssertSlot.original)

theorem softItStart_originalAssert (s : SoftState) (h : capturedOriginal s) :
    (softItStart s).originalAssert = some AssertSlot.original := by
  rcases h with h | ⟨h1, h2⟩
  · exact setup_originalAssert_of_some _ AssertSlot.original h
  · rw [softItStart, setup_originalAssert_of_none]
    · simp [h2]
    · simp [h1]

theorem softItRun_completes (s : SoftState) (run : SoftItRun)
    (h : run.ending = BodyEnd.completes) :
    softItRun s run = softItFinish (runAssertions (softItStart s) run.asserts).1 := by
  unfold softItRun
  rw [h]

theorem softItRun_syncThrow (s : SoftState) (run : SoftItRun) (e : JsError)
    (h : run.ending = BodyEnd.syncThrow e) :
    softItRun s run =
      (restoreAssertions { (runAssertions (softItStart s) run.asserts).1 with
        isInSoftTest := false }, some e) := by
  unfold softItRun
  rw [h]

theorem softItRun_rejects (s : SoftState) (run : SoftItRun) (e : JsError)
    (h : run.ending = BodyEnd.rejects e) :
    softItRun s run =
      (restoreAssertions { (runAssertions (softItStart s) run.asserts).1 with
        isInSoftTest := false }, some e) := by
  unfold softItRun
  rw [h]

/-- The state after the body's checks have run inside a `soft_it` test. -/
theorem softItRun_state_after_body (s : SoftState) (run : SoftItRun) :
    (runAssertions (softItStart s) run.asserts).1 =
      { softItStart s with softAssertionErrors := capturedRecords run.asserts } := by
  rw [runAssertions_soft run.asserts (softItStart s) (softItStart_isInSoftTest s)
    (softItStart_engineAssert s)]
  simp [softItStart_softAssertionErrors]

/-! ### Claims about the wrapper -/

/-- C1: for every invocation of the wrapped assert while the mode flag is
true, a failing delegated call appends a record of the failure's message
and optional stack to the end of the buffer and the wrapper returns
normally; a succeeding delegated call leaves the buffer unchanged. -/
theorem C1_soft_mode_capture {R A : Type}
    (originalAssert : R → A → Except JsError JsValue)
    (errs : List ErrorEntry) (thisArg : R) (args : A) :
    (∀ e, originalAssert thisArg args = Except.error e →
      softAssertWrapper originalAssert true errs thisArg args =
        (errs ++ [{ message := e.message, stack := e.stack }],
         Except.ok JsValue.undef)) ∧
    (∀ v, originalAssert thisArg args = Except.ok v →
      softAssertWrapper originalAssert true errs thisArg args =
        (errs, Except.ok JsValue.undef)) := by
  constructor
  · intro e he
    simp [softAssertWrapper, he]
  · intro v hv
    simp [softAssertWrapper, hv]

theorem C1_soft_mode_capture_witness :
    softAssertWrapper (fun (_ : Unit) (_ : Unit) => Except.error failA) true [] () () =
      ([{ message := failA.message, stack := failA.stack }], Except.ok JsValue.undef) :=
  (C1_soft_mode_capture (fun (_ : Unit) (_ : Unit) => Except.error failA) [] () ()).1
    failA rfl

/-- C7: for every invocation of the wrapped assert while the mode flag is
false, the wrapper delegates to the original routine with the same
receiver and arguments, leaves the buffer unchanged, and propagates any
failure of the original unchanged; moreover, after every `soft_it` run
the mode flag is false again, so a subsequent non-aggregating test sees
first-failure-aborts semantics. -/
theorem C7_mode_off_passthrough {R A : Type}
    (originalAssert : R → A → Except JsError JsValue)
    (errs : List ErrorEntry) (thisArg : R) (args : A) :
    ((softAssertWrapper originalAssert false errs thisArg args).1 = errs) ∧
    (∀ e, originalAssert thisArg args = Except.error e →
      (softAssertWrapper originalAssert false errs thisArg args).2 = Except.error e) ∧
    (∀ (s : SoftState) (run : SoftItRun), (softItRun s run).1.isInSoftTest = false) := by
  refine ⟨?_, ?_, ?_⟩
  · unfold softAssertWrapper
    cases originalAssert thisArg args <;> simp
  · intro e he
    simp [softAssertWrapper, he]
  · intro s run
    unfold softItRun
    cases run.ending with
    | completes => simp [softItFinish]
    | syncThrow e => simp [restore_isInSoftTest]
    | rejects e => simp [restore_isInSoftTest]

theorem C7_mode_off_passthrough_witness :
    (softAssertWrapper (fun (_ : Unit) (_ : Unit) => Except.error failA)
      false [] () ()).2 = Except.error failA :=
  (C7_mode_off_passthrough (fun (_ : Unit) (_ : Unit) => Except.error failA)
    [] () ()).2.1 failA rfl

/-- C10: in every branch of the wrapper (mode on or off, original
succeeding or failing) the wrapper never forwards a value returned by
the original routine: whenever the wrapper returns normally its value is
`undefined`, and whenever the original returns a value the wrapper
returns `undefined`. -/
theorem C10_wrapper_returns_undef {R A : Type}
    (originalAssert : R → A → Except JsError JsValue)
    (mode : Bool) (errs : List ErrorEntry) (thisArg : R) (args : A) :
    (∀ v, (softAssertWrapper originalAssert mode errs thisArg args).2 = Except.ok v →
      v = JsValue.undef) ∧
    (∀ v, originalAssert thisArg args = Except.ok v →
      (softAssertWrapper originalAssert mode errs thisArg args).2 =
        Except.ok JsValue.undef) := by
  constructor
  · intro v hv
    unfold softAssertWrapper at hv
    cases mode <;> cases h : originalAssert thisArg args <;>
      simp [h] at hv <;> exact hv.symm
  · intro v hv
    cases mode <;> simp [softAssertWrapper, hv]

theorem C10_wrapper_returns_undef_witness :
    (softAssertWrapper (fun (_ : Unit) (_ : Unit) => Except.ok (JsValue.other 7))
      false [] () ()).2 = Except.ok JsValue.undef :=
  (C10_wrapper_returns_undef (fun (_ : Unit) (_ : Unit) => Except.ok (JsValue.other 7))
    false [] () ()).2 (JsValue.other 7) rfl

/-! ### Claims about the aggregate reporter -/

/-- C2: `reportSoftAssertionFailures` throws a composite failure iff the
buffer holds at least one record; with an empty buffer it does nothing;
with N records the composite message contains exactly N numbered
entries, listing the captured messages in the order they were appended. -/
theorem C2_report_iff_failures (errs : List ErrorEntry) :
    ((reportSoftAssertionFailures errs).2.isSome ↔ 0 < errs.length) ∧
    (errs.length = 0 → reportSoftAssertionFailures errs = (errs, none)) ∧
    (0 < errs.length →
      ∃ err, reportSoftAssertionFailures errs = ([], some err) ∧
        err.message = joinSep "\n" (["", banner, headerLine errs.length, banner]
          ++ numberedLines errs ++ [banner, ""]) ∧
        (numberedLines errs).length = errs.length ∧
        ∀ i (h1 : i < (numberedLines errs).length) (h2 : i < errs.length),
          (numberedLines errs).get ⟨i, h1⟩ =
            "  " ++ toString (i + 1) ++ ". " ++ (errs.get ⟨i, h2⟩).message) := by
  refine ⟨?_, ?_, ?_⟩
  · unfold reportSoftAssertionFailures
    by_cases h : errs.length > 0 <;> simp [h]
  · intro h
    simp [reportSoftAssertionFailures, h]
  · intro h
    have hne : errs ≠ [] := by
      intro hc
      rw [hc] at h
      exact absurd h (by simp)
    have herr : reportSoftAssertionFailures errs =
        ([], some { name := "SoftAssertionError", message := finalMessageOf errs, stack := none }) := by
      simp [reportSoftAssertionFailures, h]
    exact ⟨_, herr, finalMessageOf_eq errs hne, numberedLines_length errs,
      fun i h1 h2 => numberedLines_get errs i h1 h2⟩

theorem C2_report_iff_failures_witness :
    reportSoftAssertionFailures [] = ([], none) :=
  (C2_report_iff_failures []).2.1 rfl

/-- C3: for a non-empty buffer the composite message is exactly, joined
by newlines: an empty line, an 80-character banner of `=`, the header
`SOFT ASSERTION FAILURES (N failed):`, a banner, the N numbered entry
lines `  i. message` (1-indexed, two-space indent), a banner, and an
empty line. -/
theorem C3_exact_format (errs : List ErrorEntry) (h : errs ≠ []) :
    finalMessageOf errs =
      joinSep "\n" (["", banner, headerLine errs.length, banner]
        ++ numberedLines errs ++ [banner, ""]) ∧
    banner.length = 80 ∧
    (∀ c ∈ banner.toList, c = '=') ∧
    (numberedLines errs).length = errs.length ∧
    ∀ i (h1 : i < (numberedLines errs).length) (h2 : i < errs.length),
      (numberedLines errs).get ⟨i, h1⟩ =
        "  " ++ toString (i + 1) ++ ". " ++ (errs.get ⟨i, h2⟩).message := by
  refine ⟨finalMessageOf_eq errs h, ?_, ?_, numberedLines_length errs, ?_⟩
  · decide
  · intro c hc
    simp only [banner] at hc
    exact List.eq_of_mem_replicate hc
  · intro i h1 h2
    exact numberedLines_get errs i h1 h2

theorem C3_exact_format_witness :
    finalMessageOf [{ message := "X", stack := none }] =
      joinSep "\n" (["", banner, headerLine 1, banner]
        ++ numberedLines [{ message := "X", stack := none }] ++ [banner, ""]) :=
  (C3_exact_format [{ message := "X", stack := none }] (by simp)).1

/-! ### Claims about the soft_it lifecycle -/

/-- C4 counterexample: after a synchronous hard error aborts an
aggregating test in which one soft failure was already captured, the
failure buffer is not empty — the `catch` path does not clear it. -/
theorem C4_counterexample :
    (softItRun initialState
      { asserts := [Except.error failA], ending := BodyEnd.syncThrow hardErr }
     ).1.softAssertionErrors ≠ [] := by decide

/-- C4 (amended): the buffer is empty at the start of every aggregating
test and empty after the final report step (whether or not it throws);
but after a hard error (synchronous throw or promise rejection) aborts
the test, the buffer retains exactly the records captured before the
abort — it is cleared again only at the start of the next aggregating
test. -/
theorem C4_buffer_lifecycle (s : SoftState) (run : SoftItRun) :
    ((softItStart s).softAssertionErrors = []) ∧
    (run.ending = BodyEnd.completes →
      (softItRun s run).1.softAssertionErrors = []) ∧
    (∀ e, (run.ending = BodyEnd.syncThrow e ∨ run.ending = BodyEnd.rejects e) →
      (softItRun s run).1.softAssertionErrors = capturedRecords run.asserts) := by
  refine ⟨softItStart_softAssertionErrors s, ?_, ?_⟩
  · intro hend
    rw [softItRun_completes s run hend, softItRun_state_after_body s run]
    unfold softItFinish reportSoftAssertionFailures
    by_cases h : capturedRecords run.asserts = []
    · simp [h]
    · have hl : (capturedRecords run.asserts).length > 0 := by
        cases hc : capturedRecords run.asserts with
        | nil => exact absurd hc h
        | cons x xs => simp [hc]
      simp [hl]
  · intro e hend
    rcases hend with hend | hend
    · rw [softItRun_syncThrow s run e hend, softItRun_state_after_body s run]
      simp [restore_softAssertionErrors]
    · rw [softItRun_rejects s run e hend, softItRun_state_after_body s run]
      simp [restore_softAssertionErrors]

theorem C4_buffer_lifecycle_witness :
    (softItRun initialState
      { asserts := [Except.error failA], ending := BodyEnd.completes }
     ).1.softAssertionErrors = [] :=
  (C4_buffer_lifecycle initialState
    { asserts := [Except.error failA], ending := BodyEnd.completes }).2.1 rfl

/-- C5 counterexample: after the body's awaitable rejects, the wrapper is
no longer installed on the engine — the rejection handler calls
`restoreAssertions()`, contradicting the claim that the interception is
not uninstalled there. -/
theorem C5_counterexample :
    ¬ ((softItRun initialState
        { asserts := [], ending := BodyEnd.rejects hardErr }
       ).1.engineAssert = AssertSlot.wrapper) := by decide

/-- C5 (amended): when the body's awaitable rejects, the mode flag is set
to false, the captured original assert routine IS restored onto the
engine (the interception is uninstalled by `restoreAssertions`), and the
rejection propagates unchanged as the test failure, bypassing
aggregation. -/
theorem C5_reject_restores (s : SoftState) (run : SoftItRun) (e : JsError)
    (hend : run.ending = BodyEnd.rejects e) (hcap : capturedOriginal s) :
    (softItRun s run).1.isInSoftTest = false ∧
    (softItRun s run).1.engineAssert = AssertSlot.original ∧
    (softItRun s run).2 = some e := by
  rw [softItRun_rejects s run e hend, softItRun_state_after_body s run]
  refine ⟨by simp [restore_isInSoftTest], ?_, rfl⟩
  exact restore_engineAssert_of_some _ AssertSlot.original
    (by simpa using softItStart_originalAssert s hcap)

theorem C5_reject_restores_witness :
    (softItRun initialState { asserts := [], ending := BodyEnd.rejects hardErr }
     ).1.engineAssert = AssertSlot.original :=
  (C5_reject_restores initialState
    { asserts := [], ending := BodyEnd.rejects hardErr } hardErr rfl
    (Or.inr ⟨rfl, rfl⟩)).2.1

/-- C6: when the body throws synchronously, the adapter sets the mode
flag to false, restores the captured original assert routine onto the
engine, and re-raises the same exception unchanged. -/
theorem C6_sync_throw_uninstalls (s : SoftState) (run : SoftItRun) (e : JsError)
    (hend : run.ending = BodyEnd.syncThrow e) (hcap : capturedOriginal s) :
    (softItRun s run).1.isInSoftTest = false ∧
    (softItRun s run).1.engineAssert = AssertSlot.original ∧
    (softItRun s run).2 = some e := by
  rw [softItRun_syncThrow s run e hend, softItRun_state_after_body s run]
  refine ⟨by simp [restore_isInSoftTest], ?_, rfl⟩
  exact restore_engineAssert_of_some _ AssertSlot.original
    (by simpa using softItStart_originalAssert s hcap)

theorem C6_sync_throw_uninstalls_witness :
    (softItRun initialState { asserts := [], ending := BodyEnd.syncThrow hardErr }
     ).2 = some hardErr :=
  (C6_sync_throw_uninstalls initialState
    { asserts := [], ending := BodyEnd.syncThrow hardErr } hardErr rfl
    (Or.inr ⟨rfl, rfl⟩)).2.2

/-- C8: the numbering in the composite message is the position among the
failed checks, not the original check position: with checks failing as
"A", passing, failing as "C", the message lists `  1. A` then `  2. C`. -/
theorem C8_renumbering :
    (softItRun initialState
      { asserts := [Except.error failA, Except.ok JsValue.undef, Except.error failC],
        ending := BodyEnd.completes }).2 =
      some { name := "SoftAssertionError",
             message := joinSep "\n" ["", banner, "SOFT ASSERTION FAILURES (2 failed):",
               banner, "  1. A", "  2. C", banner, ""],
             stack := none } := by
  rfl

/-! ### Claims about install / uninstall -/

theorem setup_iterate_originalAssert (n : Nat) :
    ∀ (s : SoftState) (o : AssertSlot), s.originalAssert = some o →
      (setupSoftAssertions^[n] s).originalAssert = some o := by
  induction n with
  | zero => intro s o h; simpa using h
  | succ n ih =>
    intro s o h
    rw [Function.iterate_succ_apply]
    exact ih _ o (setup_originalAssert_of_some s o h)

/-- C9: `setupSoftAssertions` (install) is idempotent; the first call
captures the engine's current assert before replacing it with the
wrapper; the captured reference is never reassigned by later calls (so
repeated installs never wrap the wrapper); `restoreAssertions`
(uninstall) puts the captured original back verbatim and is a no-op when
nothing was ever captured. -/
theorem C9_install_idempotent (s : SoftState) (o : AssertSlot) (n : Nat) :
    (setupSoftAssertions (setupSoftAssertions s) = setupSoftAssertions s) ∧
    (s.originalAssert = none →
      (setupSoftAssertions s).originalAssert = some s.engineAssert) ∧
    (s.originalAssert = some o →
      (setupSoftAssertions^[n] s).originalAssert = some o) ∧
    (s.originalAssert = some o → (restoreAssertions s).engineAssert = o) ∧
    (s.originalAssert = none → restoreAssertions s = s) := by
  refine ⟨?_, setup_originalAssert_of_none s, setup_iterate_originalAssert n s o,
    restore_engineAssert_of_some s o, ?_⟩
  · unfold setupSoftAssertions
    by_cases h : s.originalAssert = none <;> simp [h]
  · intro h
    simp [restoreAssertions, h]

theorem C9_install_idempotent_witness :
    ((setupSoftAssertions initialState).originalAssert = some AssertSlot.original) ∧
    ((setupSoftAssertions^[3] (setupSoftAssertions initialState)).originalAssert =
      some AssertSlot.original) ∧
    (restoreAssertions initialState = initialState) :=
  ⟨(C9_install_idempotent initialState AssertSlot.original 3).2.1 rfl,
   (C9_install_idempotent (setupSoftAssertions initialState) AssertSlot.original 3).2.2.1 rfl,
   (C9_install_idempotent initialState AssertSlot.original 3).2.2.2.2 rfl⟩
